import Mathlib

/-!
Shallow embedding of the Unlog logging facade (src/UnlogImplementation.h).

The embedding follows the enabled (UNLOG_ENABLED) build. Host-engine
facilities that the header merely calls into (FString::Format,
FString::Printf, the ELogVerbosity enumeration) are modelled from the
spec, as noted on the corresponding definitions; everything else is a
direct translation of the header. Side effects are made explicit: a log
call returns a trace of the format renderings it performed and the leaf
sink invocations it dispatched, `none` standing for a failed check()
assertion.
-/

namespace Unlog

/-- Verbosity levels in the declaration order of the engine's
ELogVerbosity::Type enumeration (NoLogging = 0 up to VeryVerbose = 7);
the header compares levels by their numeric enum value. -/
inductive ELogVerbosity
  | NoLogging
  | Fatal
  | Error
  | Warning
  | Display
  | Log
  | Verbose
  | VeryVerbose
deriving DecidableEq

/-- Numeric value of each enumerator, per its declaration order. -/
def ELogVerbosity.toNat : ELogVerbosity → Nat
  | .NoLogging => 0
  | .Fatal => 1
  | .Error => 2
  | .Warning => 3
  | .Display => 4
  | .Log => 5
  | .Verbose => 6
  | .VeryVerbose => 7

/-- The C++ comparison `a <= b` on ELogVerbosity enum values. -/
def ELogVerbosity.le (a b : ELogVerbosity) : Bool :=
  decide (a.toNat ≤ b.toNat)

/-- UnlogCategoryBase: a category name (FName, modelled as String) plus a
verbosity threshold. -/
structure UnlogCategoryBase where
  CategoryName : String
  Verbosity : ELogVerbosity
deriving DecidableEq

/-- UnlogCategoryBase::GetName. -/
def UnlogCategoryBase.GetName (c : UnlogCategoryBase) : String :=
  c.CategoryName

/-- UnlogCategoryBase::GetVerbosity. -/
def UnlogCategoryBase.GetVerbosity (c : UnlogCategoryBase) : ELogVerbosity :=
  c.Verbosity

/-- The UNLOG_CATEGORY(CategoryName) macro: the generated Construct builds
the singleton as CategoryName(TEXT(#CategoryName), ELogVerbosity::Log),
i.e. with the stringised identifier as name and Log as threshold. -/
def UNLOG_CATEGORY (CategoryName : String) : UnlogCategoryBase :=
  ⟨CategoryName, ELogVerbosity.Log⟩

/-- UNLOG_CATEGORY(LogGeneral): the default category declared by the header. -/
def LogGeneral : UnlogCategoryBase :=
  UNLOG_CATEGORY "LogGeneral"

/-- The two category-picker policies of the header, each carrying the
category singleton its template argument binds: TSpecificCategory<TCategory>
and TDeriveCategory<TDefaultCategory> (whose default argument is LogGeneral). -/
inductive CategoryPicker
  | TSpecificCategory (cat : UnlogCategoryBase)
  | TDeriveCategory (defaultCategory : UnlogCategoryBase)
deriving DecidableEq

/-- The static PickCategory(InOutCategory) of each picker policy:
TSpecificCategory overwrites the in-out pointer with its category
unconditionally; TDeriveCategory populates it with the default category
only when it is still nullptr. -/
def CategoryPicker.PickCategory :
    CategoryPicker → Option UnlogCategoryBase → Option UnlogCategoryBase
  | .TSpecificCategory c, _ => some c
  | .TDeriveCategory d, none => some d
  | .TDeriveCategory _, some c => some c

/-- A static target: a leaf sink (Target::UELog, Target::MessageLog,
Target::TGameScreen — identified here by name) or Target::TMultiTarget
over a list of member targets. -/
inductive Target
  | sink (id : String)
  | TMultiTarget (members : List Target)

/-- One invocation of a leaf sink: the sink's identity together with the
(category, verbosity, message) arguments its Call received. -/
structure SinkCall where
  sink : String
  Category : UnlogCategoryBase
  Verbosity : ELogVerbosity
  Message : String
deriving DecidableEq

mutual

/-- Target::Call: a leaf sink records one invocation with the given
arguments; TMultiTarget::Call invokes every member in declaration order
(its braced initializer list evaluates left to right). -/
def Target.Call :
    Target → UnlogCategoryBase → ELogVerbosity → String → List SinkCall
  | .sink id, c, v, m => [⟨id, c, v, m⟩]
  | .TMultiTarget ts, c, v, m => Target.CallList ts c v m

/-- The left-to-right expansion of TMultiTarget's pack over its members. -/
def Target.CallList :
    List Target → UnlogCategoryBase → ELogVerbosity → String → List SinkCall
  | [], _, _, _ => []
  | t :: ts, c, v, m => Target.Call t c v m ++ Target.CallList ts c v m

end

/-- An FStringFormatArg, restricted to the argument kinds the header's
compile test exercises: strings and integers. -/
inductive FStringFormatArg
  | str (s : String)
  | int (n : Int)
deriving DecidableEq

/-- The text an argument contributes when substituted into a template. -/
def FStringFormatArg.render : FStringFormatArg → String
  | .str s => s
  | .int n => toString n

/-- Digits accumulated in reverse order to the index they denote. -/
def digitsToNat (ds : List Char) : Nat :=
  ds.foldl (fun n c => 10 * n + (c.toNat - 48)) 0

/-- Modelled from the spec: numbered-placeholder scanning for the host
engine's FString::Format (engine code, not part of this repository). The
first argument is `none` in normal copying mode and `some ds` while inside
a placeholder whose digits read so far are `ds` (reversed). A well-formed
placeholder holding digits N is replaced by the N-th argument's text; a
malformed or out-of-range placeholder is copied through verbatim. -/
def formatLoop (args : List FStringFormatArg) :
    Option (List Char) → List Char → List Char
  | none, [] => []
  | none, '{' :: rest => formatLoop args (some []) rest
  | none, c :: rest => c :: formatLoop args none rest
  | some ds, [] => '{' :: ds.reverse
  | some ds, c :: rest =>
    if c = '}' then
      (if ds.isEmpty then ['{', '}']
       else
        match args.get? (digitsToNat ds.reverse) with
        | some a => a.render.data
        | none => '{' :: (ds.reverse ++ ['}'])) ++ formatLoop args none rest
    else if c.isDigit then
      formatLoop args (some (c :: ds)) rest
    else if c = '{' then
      '{' :: (ds.reverse ++ formatLoop args (some []) rest)
    else
      '{' :: (ds.reverse ++ (c :: formatLoop args none rest))

/-- Modelled from the spec: the host engine's FString::Format with
FStringFormatOrderedArguments — positional substitution of `\x7bN\x7d`
placeholders, each argument referencable zero, one or many times. -/
def FStringFormat (fmt : String) (args : List FStringFormatArg) : String :=
  String.mk (formatLoop args none fmt.data)

/-- Modelled from the spec: the host engine's FString::Printf (engine
code, not part of this repository) for the conversions the header's
compile test uses — %s consumes the next argument as text, %d the next
argument as an integer, %% is a literal percent; other text is copied. -/
def printfLoop : List Char → List FStringFormatArg → List Char
  | '%' :: '%' :: rest, args => '%' :: printfLoop rest args
  | '%' :: 's' :: rest, a :: args => a.render.data ++ printfLoop rest args
  | '%' :: 'd' :: rest, a :: args => a.render.data ++ printfLoop rest args
  | c :: rest, args => c :: printfLoop rest args
  | [], _ => []

/-- Modelled from the spec: FString::Printf over a whole template. -/
def FStringPrintf (fmt : String) (args : List FStringFormatArg) : String :=
  String.mk (printfLoop fmt.data args)

/-- Unlogger::ProcessFormatString: the TEnableIf pair of overloads selected
by TFormatOptions::IsPrintfFormat — FString::Printf when true, FString::Format
with ordered arguments when false. -/
def Unlogger.ProcessFormatString (IsPrintfFormat : Bool) (Format : String)
    (Args : List FStringFormatArg) : String :=
  if IsPrintfFormat then FStringPrintf Format Args else FStringFormat Format Args

/-- UnlogRuntimeSettingsBase: an ordered collection of runtime targets
(identified here by name) and a DefaultCategory pointer, nullptr until
SetDefaultCategory is called. -/
structure UnlogRuntimeSettingsBase where
  Targets : List String
  DefaultCategory : Option UnlogCategoryBase
deriving DecidableEq

/-- UnlogRuntimeSettingsBase::GetDefaultCategory: the stored pointer when
set, otherwise LogGeneral::Static(). -/
def UnlogRuntimeSettingsBase.GetDefaultCategory
    (s : UnlogRuntimeSettingsBase) : UnlogCategoryBase :=
  s.DefaultCategory.getD LogGeneral

/-- UnlogDefaultRuntimeSettings: PopulateSettings adds no targets and sets
the default category to LogGeneral. -/
def UnlogDefaultRuntimeSettings : UnlogRuntimeSettingsBase :=
  ⟨[], some LogGeneral⟩

/-- The Unlogger singleton's state: the installed runtime-settings pointer
(never destroyed, only repointed) and the TArray of pushed categories,
pushed at the end. -/
structure Unlogger where
  Settings : UnlogRuntimeSettingsBase
  PushedCategories : List UnlogCategoryBase
deriving DecidableEq

/-- Unlogger::CreateLogger: a fresh logger with the default runtime
settings applied and no pushed categories. -/
def Unlogger.CreateLogger : Unlogger :=
  ⟨UnlogDefaultRuntimeSettings, []⟩

/-- Unlogger::ApplyRuntimeSettingsInternal<TSettings>: repoints Settings
at the given statically-stored settings object; nothing else changes. -/
def Unlogger.ApplyRuntimeSettingsInternal (u : Unlogger)
    (S : UnlogRuntimeSettingsBase) : Unlogger :=
  { u with Settings := S }

/-- Unlogger::PushCategory: TArray::Push appends at the end. -/
def Unlogger.PushCategory (u : Unlogger) (Category : UnlogCategoryBase) :
    Unlogger :=
  { u with PushedCategories := u.PushedCategories ++ [Category] }

/-- Unlogger::PopCategory: check(PushedCategories.Num() > 0), then
TArray::Pop removes the last entry; `none` models the failed check. -/
def Unlogger.PopCategory (u : Unlogger) : Option Unlogger :=
  if u.PushedCategories.isEmpty then none
  else some { u with PushedCategories := u.PushedCategories.dropLast }

/-- Unlogger::PickCategory<CategoryPicker>: seeds SelectedCategory with
the last pushed category (nullptr when the stack is empty), lets the
picker policy rewrite it, then check(SelectedCategory); `none` models the
failed check. -/
def Unlogger.PickCategory (u : Unlogger) (picker : CategoryPicker) :
    Option UnlogCategoryBase :=
  picker.PickCategory u.PushedCategories.getLast?

/-- TStaticConfiguration: the format options, category picker and target
options a generated log function hands to UnlogPrivateImpl. -/
structure TStaticConfiguration where
  IsPrintfFormat : Bool
  CategoryPicker : CategoryPicker
  TargetOptions : Target

/-- The observable work of one UnlogPrivateImpl call: every format
rendering it performed and every leaf-sink invocation it dispatched,
in order. -/
structure EmitTrace where
  formats : List String
  dispatches : List SinkCall
deriving DecidableEq

/-- Unlogger::UnlogPrivateImpl<StaticConfiguration>: picks the category,
and only when Verbosity <= Category.GetVerbosity() and Verbosity !=
ELogVerbosity::NoLogging renders the format string and calls the static
targets; `none` models a failed check inside PickCategory. -/
def Unlogger.UnlogPrivateImpl (cfg : TStaticConfiguration) (u : Unlogger)
    (Format : String) (Verbosity : ELogVerbosity)
    (Args : List FStringFormatArg) : Option EmitTrace :=
  match u.PickCategory cfg.CategoryPicker with
  | none => none
  | some Category =>
    if Verbosity.le Category.GetVerbosity && !(Verbosity == ELogVerbosity.NoLogging) then
      let Result := Unlogger.ProcessFormatString cfg.IsPrintfFormat Format Args
      some ⟨[Result], cfg.TargetOptions.Call Category Verbosity Result⟩
    else
      some ⟨[], []⟩

/-- The unconditional log function UNLOG_DECLARE_CATEGORY_LOG_FUNCTION_CONDITIONALS
generates in the UNLOG_ENABLED build: forwards straight to UnlogPrivateImpl. -/
def LogFunction (cfg : TStaticConfiguration) (u : Unlogger) (Format : String)
    (Verbosity : ELogVerbosity) (Args : List FStringFormatArg) :
    Option EmitTrace :=
  Unlogger.UnlogPrivateImpl cfg u Format Verbosity Args

/-- The bool-conditional overload: runs UnlogPrivateImpl only when
Condition holds, and otherwise does nothing at all. -/
def LogFunctionConditional (cfg : TStaticConfiguration) (u : Unlogger)
    (Condition : Bool) (Format : String) (Verbosity : ELogVerbosity)
    (Args : List FStringFormatArg) : Option EmitTrace :=
  if Condition then Unlogger.UnlogPrivateImpl cfg u Format Verbosity Args
  else some ⟨[], []⟩

/-- The TFunction<bool()> overload: invokes LambdaCondition() once and
forwards the result to the bool-conditional overload. The Nat component
counts how many times the callable was invoked. -/
def LogFunctionLambda (cfg : TStaticConfiguration) (u : Unlogger)
    (LambdaCondition : Unit → Bool) (Format : String)
    (Verbosity : ELogVerbosity) (Args : List FStringFormatArg) :
    Nat × Option EmitTrace :=
  (1, LogFunctionConditional cfg u (LambdaCondition ()) Format Verbosity Args)

/-- The disabled (not UNLOG_ENABLED) variant: one variadic no-op body that
never evaluates or invokes any of its arguments. The Nat component counts
invocations of a passed-in callable, which is always zero. -/
def LogFunctionDisabled (_LambdaCondition : Unit → Bool) :
    Nat × Option EmitTrace :=
  (0, some ⟨[], []⟩)

/-- FUnlogScopedCategory<TCategory> construction: pushes the category
singleton onto the Unlogger's stack. -/
def FUnlogScopedCategory.construct (Category : UnlogCategoryBase)
    (u : Unlogger) : Unlogger :=
  u.PushCategory Category

/-- FUnlogScopedCategory<TCategory> destruction: pops the stack. -/
def FUnlogScopedCategory.destruct (u : Unlogger) : Option Unlogger :=
  u.PopCategory

/-- UnlogContextBase: a context's name and its activation counter. The
source's Counter is a uint32, so its values lie below 4294967296 (= 2^32):
Counter++ wraps to 0 at that bound, and Counter-- is guarded against
underflow by check(Counter > 0u). -/
structure UnlogContextBase where
  ContextName : String
  Counter : Nat
deriving DecidableEq

/-- The UNLOG_CONTEXT(ContextName) macro: Construct builds the singleton
with the stringised identifier as name; the counter starts at 0. -/
def UNLOG_CONTEXT (ContextName : String) : UnlogContextBase :=
  ⟨ContextName, 0⟩

/-- UnlogContextBase::IncrementCounter: Counter++ on a uint32, wrapping
to 0 at 4294967296 (= 2^32). -/
def UnlogContextBase.IncrementCounter (c : UnlogContextBase) :
    UnlogContextBase :=
  { c with Counter := (c.Counter + 1) % 4294967296 }

/-- UnlogContextBase::DecrementCounter: check(Counter > 0u) then
decrements; `none` models the failed check. -/
def UnlogContextBase.DecrementCounter (c : UnlogContextBase) :
    Option UnlogContextBase :=
  if c.Counter > 0 then some { c with Counter := c.Counter - 1 } else none

/-- UnlogContextBase::IsActive: the counter is strictly positive. -/
def UnlogContextBase.IsActive (c : UnlogContextBase) : Bool :=
  decide (c.Counter > 0)

/-- UnloggerScopedContext construction: increments the context's counter
only when the stored Value is true. -/
def UnloggerScopedContext.construct (Value : Bool) (c : UnlogContextBase) :
    UnlogContextBase :=
  if Value then c.IncrementCounter else c

/-- UnloggerScopedContext destruction: decrements only when the stored
Value is true; `none` models a failed underflow check. -/
def UnloggerScopedContext.destruct (Value : Bool) (c : UnlogContextBase) :
    Option UnlogContextBase :=
  if Value then c.DecrementCounter else some c

/-- A concrete category used to instantiate examples. -/
def CatA : UnlogCategoryBase := UNLOG_CATEGORY "CatA"

/-- A second concrete category used to instantiate examples. -/
def CatD : UnlogCategoryBase := UNLOG_CATEGORY "CatD"

/-- The Bool emission condition of UnlogPrivateImpl, restated as the
proposition the spec uses. -/
theorem emission_cond_iff (V : ELogVerbosity) (C : UnlogCategoryBase) :
    (V.le C.GetVerbosity && !(V == ELogVerbosity.NoLogging)) = true ↔
      (V.toNat ≤ C.GetVerbosity.toNat ∧ V ≠ ELogVerbosity.NoLogging) := by
  simp [ELogVerbosity.le]

/-- Claim C1: for every log call whose category resolves, emission proceeds
only when the call verbosity is at most the resolved category's threshold
and is not NoLogging: when that predicate is false the call's trace holds
no format rendering and no target dispatch, and when it is true the
rendered string is produced and handed to the configured targets. -/
theorem C1_emission_gate (cfg : TStaticConfiguration) (u : Unlogger)
    (Format : String) (V : ELogVerbosity) (Args : List FStringFormatArg)
    (Category : UnlogCategoryBase)
    (hpick : u.PickCategory cfg.CategoryPicker = some Category) :
    ∃ t : EmitTrace,
      Unlogger.UnlogPrivateImpl cfg u Format V Args = some t ∧
      ((V.toNat ≤ Category.GetVerbosity.toNat ∧ V ≠ ELogVerbosity.NoLogging) →
        t.formats = [Unlogger.ProcessFormatString cfg.IsPrintfFormat Format Args] ∧
        t.dispatches = cfg.TargetOptions.Call Category V
          (Unlogger.ProcessFormatString cfg.IsPrintfFormat Format Args)) ∧
      (¬(V.toNat ≤ Category.GetVerbosity.toNat ∧ V ≠ ELogVerbosity.NoLogging) →
        t.formats = [] ∧ t.dispatches = []) := by
  simp only [Unlogger.UnlogPrivateImpl, hpick]
  by_cases h : V.toNat ≤ Category.GetVerbosity.toNat ∧ V ≠ ELogVerbosity.NoLogging
  · rw [if_pos ((emission_cond_iff V Category).mpr h)]
    exact ⟨_, rfl, fun _ => ⟨rfl, rfl⟩, fun hc => absurd h hc⟩
  · rw [if_neg (fun hb => h ((emission_cond_iff V Category).mp hb))]
    exact ⟨_, rfl, fun hc => absurd hc h, fun _ => ⟨rfl, rfl⟩⟩

/-- Witness for C1 at a concrete call: default logger state, derive picker,
one leaf sink, verbosity Log, message "m". -/
theorem C1_emission_gate_witness :
    (Unlogger.CreateLogger.PickCategory (.TDeriveCategory LogGeneral) =
      some LogGeneral) ∧
    (∃ t : EmitTrace,
      Unlogger.UnlogPrivateImpl ⟨false, .TDeriveCategory LogGeneral, .sink "UELog"⟩
          Unlogger.CreateLogger "m" .Log [] = some t ∧
      ((ELogVerbosity.Log.toNat ≤ LogGeneral.GetVerbosity.toNat ∧
          ELogVerbosity.Log ≠ ELogVerbosity.NoLogging) →
        t.formats = [Unlogger.ProcessFormatString false "m" []] ∧
        t.dispatches = Target.Call (.sink "UELog") LogGeneral .Log
          (Unlogger.ProcessFormatString false "m" [])) ∧
      (¬(ELogVerbosity.Log.toNat ≤ LogGeneral.GetVerbosity.toNat ∧
          ELogVerbosity.Log ≠ ELogVerbosity.NoLogging) →
        t.formats = [] ∧ t.dispatches = [])) :=
  ⟨rfl, C1_emission_gate ⟨false, .TDeriveCategory LogGeneral, .sink "UELog"⟩
    Unlogger.CreateLogger "m" .Log [] LogGeneral rfl⟩

/-- Claim C2: category resolution precedence is explicit category, then
top of the scope stack, then flavor default: a TSpecificCategory picker
resolves to its category whatever the stack holds; a TDeriveCategory
picker resolves to the most recently pushed category when the stack is
non-empty and to its configured default when the stack is empty. -/
theorem C2_pick_category_precedence (u : Unlogger) (C D : UnlogCategoryBase) :
    u.PickCategory (.TSpecificCategory C) = some C ∧
    (∀ c, u.PushedCategories.getLast? = some c →
      u.PickCategory (.TDeriveCategory D) = some c) ∧
    (u.PushedCategories = [] → u.PickCategory (.TDeriveCategory D) = some D) := by
  refine ⟨rfl, ?_, ?_⟩
  · intro c hc
    unfold Unlogger.PickCategory
    rw [hc]
    rfl
  · intro h
    unfold Unlogger.PickCategory
    rw [h]
    rfl

/-- Witness for C2, mirroring the spec's example: with scope stack [CatA]
and flavor default CatD, an explicit category wins, a derive picker
resolves to CatA, and with the stack popped back to empty it resolves
to CatD. -/
theorem C2_pick_category_precedence_witness :
    (Unlogger.mk UnlogDefaultRuntimeSettings [CatA]).PickCategory
        (.TSpecificCategory CatD) = some CatD ∧
    (Unlogger.mk UnlogDefaultRuntimeSettings [CatA]).PickCategory
        (.TDeriveCategory CatD) = some CatA ∧
    (Unlogger.mk UnlogDefaultRuntimeSettings []).PickCategory
        (.TDeriveCategory CatD) = some CatD :=
  ⟨(C2_pick_category_precedence ⟨UnlogDefaultRuntimeSettings, [CatA]⟩ CatD CatD).1,
   (C2_pick_category_precedence ⟨UnlogDefaultRuntimeSettings, [CatA]⟩ CatD CatD).2.1
     CatA rfl,
   (C2_pick_category_precedence ⟨UnlogDefaultRuntimeSettings, []⟩ CatD CatD).2.2 rfl⟩

/-- Claim C3: the three call shapes are equivalent in effect — the
unconditional call, the boolean-guarded call with condition true, and the
lazily-guarded call whose callable returns true produce the same
filtering, formatting and dispatch; a false guard short-circuits the call
to nothing at all: no filtering, no formatting, no dispatch. -/
theorem C3_call_shapes_equivalent (cfg : TStaticConfiguration) (u : Unlogger)
    (Format : String) (V : ELogVerbosity) (Args : List FStringFormatArg) :
    LogFunction cfg u Format V Args =
      LogFunctionConditional cfg u true Format V Args ∧
    (∀ LambdaCondition : Unit → Bool,
      (LogFunctionLambda cfg u LambdaCondition Format V Args).2 =
        LogFunctionConditional cfg u (LambdaCondition ()) Format V Args) ∧
    (LogFunctionLambda cfg u (fun _ => true) Format V Args).2 =
      LogFunction cfg u Format V Args ∧
    LogFunctionConditional cfg u false Format V Args = some ⟨[], []⟩ ∧
    (LogFunctionLambda cfg u (fun _ => false) Format V Args).2 = some ⟨[], []⟩ :=
  ⟨rfl, fun _ => rfl, rfl, rfl, rfl⟩

/-- Claim C4: a scoped category guard pushes its category on construction
and destruction pops exactly the entry it pushed, so nested guards keep
the stack balanced: after pushing A then B the stack ends in [A, B],
exiting the inner scope restores the state after pushing A alone, and
exiting the outer scope restores the original state. -/
theorem C4_scoped_category_balanced (u : Unlogger) (A B : UnlogCategoryBase) :
    (FUnlogScopedCategory.construct A u).PushedCategories =
      u.PushedCategories ++ [A] ∧
    (FUnlogScopedCategory.construct B
        (FUnlogScopedCategory.construct A u)).PushedCategories =
      u.PushedCategories ++ [A, B] ∧
    FUnlogScopedCategory.destruct
        (FUnlogScopedCategory.construct B (FUnlogScopedCategory.construct A u)) =
      some (FUnlogScopedCategory.construct A u) ∧
    FUnlogScopedCategory.destruct (FUnlogScopedCategory.construct A u) = some u := by
  refine ⟨rfl, by simp [FUnlogScopedCategory.construct, Unlogger.PushCategory], ?_, ?_⟩
  · simp [FUnlogScopedCategory.construct, FUnlogScopedCategory.destruct,
      Unlogger.PushCategory, Unlogger.PopCategory]
  · simp [FUnlogScopedCategory.construct, FUnlogScopedCategory.destruct,
      Unlogger.PushCategory, Unlogger.PopCategory]

/-- Claim C5: a TMultiTarget receiving one emission invokes each member
sink exactly once, in declaration order, passing every sink the identical
(category, verbosity, message) arguments. -/
theorem C5_multi_target_fanout (sinkIds : List String)
    (Category : UnlogCategoryBase) (V : ELogVerbosity) (Message : String) :
    Target.Call (.TMultiTarget (sinkIds.map Target.sink)) Category V Message =
      sinkIds.map (fun id => ⟨id, Category, V, Message⟩) := by
  have h : ∀ ids : List String,
      Target.CallList (ids.map Target.sink) Category V Message =
        ids.map (fun id => ⟨id, Category, V, Message⟩) := by
    intro ids
    induction ids with
    | nil => rfl
    | cons i is ih => simp [Target.CallList, Target.Call, ih]
  simpa [Target.Call] using h sinkIds

/-- Counterexample to C6: after installing runtime settings whose default
category is CatD and whose target list is ["RuntimeSink"], a call with no
explicit category and an empty scope stack still resolves to the flavor
picker's default LogGeneral — not to CatD — and dispatches to the flavor's
static target, not to the installed settings' targets: the Unlogger never
reads its Settings field on the logging path. -/
theorem C6_settings_not_consulted :
    ((Unlogger.CreateLogger.ApplyRuntimeSettingsInternal
        ⟨["RuntimeSink"], some CatD⟩).PickCategory
      (.TDeriveCategory LogGeneral) = some LogGeneral) ∧
    LogGeneral ≠ CatD ∧
    Unlogger.UnlogPrivateImpl
        ⟨false, .TDeriveCategory LogGeneral, .sink "StaticSink"⟩
        (Unlogger.CreateLogger.ApplyRuntimeSettingsInternal
          ⟨["RuntimeSink"], some CatD⟩)
        "m" .Log [] =
      some ⟨["m"], [⟨"StaticSink", LogGeneral, .Log, "m"⟩]⟩ ∧
    ("StaticSink" : String) ≠ "RuntimeSink" := by
  refine ⟨rfl, by decide, by decide, by decide⟩

/-- Claim C6 as amended: exactly one settings object is active at a time —
installing repoints the single Settings field at the new object, leaves
the pushed-category stack untouched and does not destroy the old object —
but log calls never consult the active settings: the outcome of
UnlogPrivateImpl is independent of the Settings field, with category
defaulting and target dispatch taken from the call's static
configuration. -/
theorem C6_apply_settings_replaces_pointer (u : Unlogger)
    (S : UnlogRuntimeSettingsBase) :
    (u.ApplyRuntimeSettingsInternal S).Settings = S ∧
    (u.ApplyRuntimeSettingsInternal S).PushedCategories = u.PushedCategories ∧
    (∀ (cfg : TStaticConfiguration) (Format : String) (V : ELogVerbosity)
        (Args : List FStringFormatArg),
      Unlogger.UnlogPrivateImpl cfg (u.ApplyRuntimeSettingsInternal S)
          Format V Args =
        Unlogger.UnlogPrivateImpl cfg u Format V Args) :=
  ⟨rfl, rfl, fun _ _ _ _ => rfl⟩

/-- Counterexample to C7: the uint32 counter wraps on increment, so the
claimed overlap and balance properties fail near the top of the range.
With 4294967294 guards open, opening two further overlapping guards wraps
the counter to 0 and IsActive() is false although all the guards are
still open; with 4294967295 open, one further construction wraps to 0 and
the matching destruction trips the fatal check instead of decrementing. -/
theorem C7_counter_wraps :
    (UnloggerScopedContext.construct true
        (UnloggerScopedContext.construct true
          ⟨"Ctx", 4294967294⟩)).IsActive = false ∧
    UnloggerScopedContext.destruct true
        (UnloggerScopedContext.construct true ⟨"Ctx", 4294967295⟩) = none := by
  refine ⟨by decide, by decide⟩

/-- Claim C7 as amended: while the uint32 counter does not wrap (fewer
than 2^32 guards simultaneously open), a context flag is active exactly
when its counter is positive; two overlapping guards opened with true
increment it twice, closing one keeps it active and closing both restores
the original state; decrementing at zero fails the underflow check. -/
theorem C7_context_flag_refcount (c : UnlogContextBase)
    (hc : c.Counter + 2 < 4294967296) :
    (c.IsActive = true ↔ 0 < c.Counter) ∧
    (UnloggerScopedContext.construct true
        (UnloggerScopedContext.construct true c)).IsActive = true ∧
    UnloggerScopedContext.destruct true
        (UnloggerScopedContext.construct true
          (UnloggerScopedContext.construct true c)) =
      some (UnloggerScopedContext.construct true c) ∧
    (UnloggerScopedContext.construct true c).IsActive = true ∧
    UnloggerScopedContext.destruct true (UnloggerScopedContext.construct true c) =
      some c ∧
    (c.Counter = 0 → c.DecrementCounter = none) := by
  have e1 : (c.Counter + 1) % 4294967296 = c.Counter + 1 := by omega
  have e2 : (c.Counter + 1 + 1) % 4294967296 = c.Counter + 1 + 1 := by omega
  refine ⟨?_, ?_, ?_, ?_, ?_, ?_⟩
  · simp [UnlogContextBase.IsActive]
  · simp [UnloggerScopedContext.construct, UnlogContextBase.IncrementCounter,
      UnlogContextBase.IsActive, e1, e2]
  · simp [UnloggerScopedContext.construct, UnloggerScopedContext.destruct,
      UnlogContextBase.IncrementCounter, UnlogContextBase.DecrementCounter, e1, e2]
  · simp [UnloggerScopedContext.construct, UnlogContextBase.IncrementCounter,
      UnlogContextBase.IsActive, e1]
  · simp [UnloggerScopedContext.construct, UnloggerScopedContext.destruct,
      UnlogContextBase.IncrementCounter, UnlogContextBase.DecrementCounter, e1]
  · intro h
    simp [UnlogContextBase.DecrementCounter, h]

/-- Witness for the amended C7 at the freshly constructed context
"EditorContext" (counter zero), with the no-wrap and underflow hypotheses
discharged. -/
theorem C7_context_flag_refcount_witness :
    (UNLOG_CONTEXT "EditorContext").Counter + 2 < 4294967296 ∧
    ((UNLOG_CONTEXT "EditorContext").IsActive = true ↔
      0 < (UNLOG_CONTEXT "EditorContext").Counter) ∧
    (UnloggerScopedContext.construct true
        (UnloggerScopedContext.construct true
          (UNLOG_CONTEXT "EditorContext"))).IsActive = true ∧
    UnloggerScopedContext.destruct true
        (UnloggerScopedContext.construct true
          (UnloggerScopedContext.construct true (UNLOG_CONTEXT "EditorContext"))) =
      some (UnloggerScopedContext.construct true (UNLOG_CONTEXT "EditorContext")) ∧
    (UnloggerScopedContext.construct true
        (UNLOG_CONTEXT "EditorContext")).IsActive = true ∧
    UnloggerScopedContext.destruct true
        (UnloggerScopedContext.construct true (UNLOG_CONTEXT "EditorContext")) =
      some (UNLOG_CONTEXT "EditorContext") ∧
    (UNLOG_CONTEXT "EditorContext").DecrementCounter = none :=
  have h := C7_context_flag_refcount (UNLOG_CONTEXT "EditorContext") (by decide)
  ⟨by decide, h.1, h.2.1, h.2.2.1, h.2.2.2.1, h.2.2.2.2.1, h.2.2.2.2.2 rfl⟩

/-- Counterexample to C8: in the enabled build, a lazily-guarded call
whose callable returns false still invokes the callable — the
instrumented count is one, not the zero the claim demands for a
false-evaluating guard. -/
theorem C8_lambda_invoked_once :
    (LogFunctionLambda ⟨false, .TDeriveCategory LogGeneral, .sink "UELog"⟩
        Unlogger.CreateLogger (fun _ => false) "m" .Log []).1 = 1 ∧
    (1 : Nat) ≠ 0 :=
  ⟨rfl, by decide⟩

/-- Claim C8 as amended: the condition callable is never invoked when the
facility is compiled out (the disabled no-op evaluates nothing); in the
enabled build the lazily-guarded call invokes the callable exactly once,
even when it returns false, and a false result causes no filtering,
formatting or dispatch. -/
theorem C8_lambda_guard_amended (LambdaCondition : Unit → Bool)
    (cfg : TStaticConfiguration) (u : Unlogger) (Format : String)
    (V : ELogVerbosity) (Args : List FStringFormatArg) :
    (LogFunctionDisabled LambdaCondition).1 = 0 ∧
    (LogFunctionDisabled LambdaCondition).2 = some ⟨[], []⟩ ∧
    (LogFunctionLambda cfg u LambdaCondition Format V Args).1 = 1 ∧
    (LambdaCondition () = false →
      (LogFunctionLambda cfg u LambdaCondition Format V Args).2 =
        some ⟨[], []⟩) := by
  refine ⟨rfl, rfl, rfl, fun h => ?_⟩
  simp [LogFunctionLambda, LogFunctionConditional, h]

/-- Witness for the amended C8 at a concrete false-returning callable and
a concrete enabled configuration. -/
theorem C8_lambda_guard_amended_witness :
    ((LogFunctionDisabled (fun _ => false)).1 = 0 ∧
     (LogFunctionDisabled (fun _ => false)).2 = some ⟨[], []⟩ ∧
     (LogFunctionLambda ⟨false, .TDeriveCategory LogGeneral, .sink "UELog"⟩
        Unlogger.CreateLogger (fun _ => false) "m" .Log []).1 = 1) ∧
    (LogFunctionLambda ⟨false, .TDeriveCategory LogGeneral, .sink "UELog"⟩
        Unlogger.CreateLogger (fun _ => false) "m" .Log []).2 = some ⟨[], []⟩ :=
  have h := C8_lambda_guard_amended (fun _ => false)
    ⟨false, .TDeriveCategory LogGeneral, .sink "UELog"⟩
    Unlogger.CreateLogger "m" .Log []
  ⟨⟨h.1, h.2.1, h.2.2.1⟩, h.2.2.2 rfl⟩

/-- Claim C9: numbered-placeholder formatting substitutes arguments
positionally by index, an argument referencable zero, one or multiple
times: the ordered-arguments ProcessFormatString renders "{0}-{1}-{0}"
with arguments ("x", 7) as exactly "x-7-x". -/
theorem C9_numbered_format_positional :
    Unlogger.ProcessFormatString false "{0}-{1}-{0}"
      [FStringFormatArg.str "x", FStringFormatArg.int 7] = "x-7-x" := by
  decide

/-- Claim C10: every category declared through UNLOG_CATEGORY is
constructed with its name equal to the declared identifier and a
verbosity threshold of Log; consequently, with its threshold unchanged,
log calls at Verbose or VeryVerbose verbosity perform no formatting and
no dispatch. -/
theorem C10_category_macro_defaults (CategoryName : String) (pf : Bool)
    (tgt : Target) (u : Unlogger) (Format : String)
    (Args : List FStringFormatArg) :
    (UNLOG_CATEGORY CategoryName).GetName = CategoryName ∧
    (UNLOG_CATEGORY CategoryName).GetVerbosity = ELogVerbosity.Log ∧
    Unlogger.UnlogPrivateImpl
        ⟨pf, .TSpecificCategory (UNLOG_CATEGORY CategoryName), tgt⟩
        u Format .Verbose Args = some ⟨[], []⟩ ∧
    Unlogger.UnlogPrivateImpl
        ⟨pf, .TSpecificCategory (UNLOG_CATEGORY CategoryName), tgt⟩
        u Format .VeryVerbose Args = some ⟨[], []⟩ :=
  ⟨rfl, rfl, rfl, rfl⟩

end Unlog
